import Mathlib

/-!
Verification of the threat-processing core of the cogT repository
(`backend/app/alert_system.py`, `backend/app/fake_account_detector.py`,
`backend/main.py`).

Python floats are modelled by `ℚ`, Python strings by `String`, Python
dicts with a fixed key set by structures (optional keys become `Option`),
and stateful code by explicit state passing.  External collaborators
(the Telegram transport, the Wayback archiver, wall-clock reads) enter
as explicit parameters of the functions that consume them.
-/

set_option maxRecDepth 4000000

namespace CogT

/-- Python `str.lower` as applied to the scanned content
(`content.lower()` in `classify_threat`). -/
def pyLower (s : String) : String := ⟨s.data.map Char.toLower⟩

/-- Python substring containment `needle in hay` on character lists:
`needle` occurs contiguously inside `hay`. -/
def containsSub (hay needle : List Char) : Bool :=
  if needle.isPrefixOf hay then true
  else
    match hay with
    | [] => false
    | _ :: t => containsSub t needle

/-- Python `needle in hay` for strings. -/
def pyInStr (needle hay : String) : Bool := containsSub hay.data needle.data

/-- `critical_keywords` of `TelegramAlertSystem.classify_threat`. -/
def critical_keywords : List String :=
  ["death", "kill", "bomb", "attack", "doxx", "leak", "hack", "threat"]

/-- `high_keywords` of `TelegramAlertSystem.classify_threat`. -/
def high_keywords : List String :=
  ["fake", "fraud", "scam", "imposter", "lie", "false"]

/-- The dict `{"level": ..., "score": ...}` returned by `classify_threat`. -/
structure ThreatClassification where
  level : String
  score : ℚ
deriving DecidableEq, Repr

/-- `TelegramAlertSystem.classify_threat` (alert_system.py, lines 26-52),
argument for argument.  `base_score` is the max of the dissonance score,
the drift score scaled down by 10, and the fake-account score; a keyword
hit on the lower-cased content adds 3.0 (critical vocabulary) or else
1.5 (high vocabulary), clamped by `min(10.0, ...)`; the level thresholds
are 9.0 / 7.0 / 5.0. -/
def classify_threat (dissonance_score drift_score : ℚ) (content : String)
    (fake_account_score : ℚ) : ThreatClassification :=
  let base_score := max (max dissonance_score (drift_score / 10)) fake_account_score
  let content_lower := pyLower content
  let boosted :=
    if critical_keywords.any (fun word => pyInStr word content_lower) then
      min 10 (base_score + 3)
    else if high_keywords.any (fun word => pyInStr word content_lower) then
      min 10 (base_score + 3 / 2)
    else base_score
  if boosted ≥ 9 then ⟨"critical", boosted⟩
  else if boosted ≥ 7 then ⟨"high", boosted⟩
  else if boosted ≥ 5 then ⟨"medium", boosted⟩
  else ⟨"low", boosted⟩

/-- The reference classifier written from the words of spec §4.2:
`base = max(contradictionScore, driftScore/10, impersonationScore)`,
plus a mutually exclusive boost of 3.0 (critical vocabulary) or 1.5
(high vocabulary), with the result clamped to [0, 10], and level bands
inclusive on their lower edges at 9.0 / 7.0 / 5.0. -/
def classifySpec (contradictionScore driftScore impersonationScore : ℚ)
    (content : String) : ThreatClassification :=
  let base := max (max contradictionScore (driftScore / 10)) impersonationScore
  let contentLower := pyLower content
  let boost : ℚ :=
    if critical_keywords.any (fun w => pyInStr w contentLower) then 3
    else if high_keywords.any (fun w => pyInStr w contentLower) then 3 / 2
    else 0
  let score := max 0 (min 10 (base + boost))
  if score ≥ 9 then ⟨"critical", score⟩
  else if score ≥ 7 then ⟨"high", score⟩
  else if score ≥ 5 then ⟨"medium", score⟩
  else ⟨"low", score⟩

/-- The optional fake-account report dict consumed by `process_threat`
(`fake_account_analysis`): only the two score keys are read there. -/
structure FakeReport where
  fake_account_risk_score : Option ℚ
  risk_score : Option ℚ
deriving DecidableEq, Repr

/-- The `analysis_result` dict consumed by `process_threat`: keys read
are `dissonance_score`, `drift_score` and `justification`, each through
`.get` with a default. -/
structure AnalysisResult where
  dissonance_score : Option ℚ
  drift_score : Option ℚ
  justification : Option String
deriving DecidableEq, Repr

/-- The `threat_data` dict prepared by `process_threat` and passed to
both alert channels. -/
structure ThreatData where
  vip_handle : String
  content : String
  platform : String
  url : Option String
  timestamp : String
  classification : ThreatClassification
  analysis_reason : String
  evidence_id : String
  blockchain_hash : String
  fake_account_analysis : Option FakeReport
deriving DecidableEq, Repr

/-- Outcome of the external Telegram transport
(`requests.post` + `response.raise_for_status()`): either a delivered
message (with the message id extracted from the response JSON) or a
transport-level exception (timeout, non-success status, ...) rendered
as its `str(e)`. -/
inductive TransportOutcome where
  | success (message_id : Option Nat)
  | failure (error : String)
deriving DecidableEq, Repr

/-- A per-channel result dict as built by `send_telegram_alert` /
`send_console_alert`; absent dict keys are `none`. -/
structure ChannelResult where
  status : String
  channel : Option String
  reason : Option String
  message_id : Option Nat
  error : Option String
deriving DecidableEq, Repr

/-- `TelegramAlertSystem.send_telegram_alert` (alert_system.py, lines
54-120).  The whole body runs inside `try/except`.  If
`telegram_enabled` is false it returns the skipped dict at once, before
any network call.  Otherwise the message is rendered (pure string
formatting over the typed `threat_data`, which cannot fail) and the
transport is invoked; a delivered response yields the sent dict with the
message id, and any raised transport error is caught and converted to
the failed dict carrying `str(e)`.  The second component records
whether the network call (`requests.post`) was reached. -/
def send_telegram_alert (telegram_enabled : Bool)
    (transport : TransportOutcome) (threat_data : ThreatData) :
    ChannelResult × Bool :=
  if !telegram_enabled then
    (⟨"skipped", none, some "telegram_disabled", none, none⟩, false)
  else
    match transport with
    | .success mid => (⟨"sent", some "telegram", none, mid, none⟩, true)
    | .failure e => (⟨"failed", some "telegram", none, none, some e⟩, true)

/-- `TelegramAlertSystem.send_console_alert` (alert_system.py, lines
122-163): formats and prints the alert; over the typed `threat_data`
the formatting is total, so the result is always the sent/console
dict. -/
def send_console_alert (threat_data : ThreatData) : ChannelResult :=
  ⟨"sent", some "console", none, none, none⟩

/-- The per-account analysis dict produced by
`FakeAccountDetector.analyze_reddit_account` /
`analyze_telegram_account` (fake_account_detector.py): a username (or
channel name), an additive risk score, the ordered list of suspicious
flags, plus timestamp and platform. -/
structure AccountAnalysis where
  username : String
  risk_score : ℚ
  suspicious_flags : List String
  analysis_timestamp : String
  platform : String
deriving DecidableEq, Repr

/-- The dict returned by
`FakeAccountDetector.check_username_similarity`. -/
structure SimilarityCheck where
  is_suspicious_similarity : Bool
  max_similarity : ℚ
  closest_vip_match : Option String
  all_similarities : List (String × ℚ)
deriving DecidableEq, Repr

/-- The report dict returned by
`FakeAccountDetector.generate_fake_account_report`. -/
structure FakeAccountReport where
  fake_account_risk_score : ℚ
  threat_level : String
  suspicious_flags : List String
  similarity_analysis : SimilarityCheck
  account_details : AccountAnalysis
  recommendation : String
deriving DecidableEq, Repr

/-- `FakeAccountDetector._get_recommendation` (fake_account_detector.py,
lines 193-201). -/
def get_recommendation (threat_level : String) : String :=
  if threat_level = "critical" then
    "IMMEDIATE ACTION REQUIRED - Likely impersonation account, consider legal action"
  else if threat_level = "high" then
    "HIGH PRIORITY - Investigate further, consider platform reporting"
  else if threat_level = "medium" then
    "MONITOR CLOSELY - Suspicious patterns detected, continue surveillance"
  else if threat_level = "low" then
    "ROUTINE MONITORING - Low risk, continue standard monitoring"
  else "Continue monitoring"

/-- The Python `f"Username highly similar to VIP: {...}"` flag text;
`None` prints as "None". -/
def similarityFlag (closest : Option String) : String :=
  "Username highly similar to VIP: " ++
    (match closest with | some v => v | none => "None")

/-- `FakeAccountDetector.generate_fake_account_report`
(fake_account_detector.py, lines 167-191).  `all_flags` is bound to the
very `suspicious_flags` list object of `account_analysis`, and the
similarity flag is appended to it in place when the similarity check is
suspicious; the in-place mutation is modelled by returning the
post-call state of the caller's `account_analysis` as the first
component (its `suspicious_flags` now being `all_flags`).
`account_details` holds the (mutated) analysis object itself. -/
def generate_fake_account_report (account_analysis : AccountAnalysis)
    (similarity_check : SimilarityCheck) :
    AccountAnalysis × FakeAccountReport :=
  let total_risk := account_analysis.risk_score + similarity_check.max_similarity * 5
  let all_flags :=
    if similarity_check.is_suspicious_similarity then
      account_analysis.suspicious_flags ++
        [similarityFlag similarity_check.closest_vip_match]
    else account_analysis.suspicious_flags
  let account_analysis' := { account_analysis with suspicious_flags := all_flags }
  let threat_level :=
    if total_risk ≥ 8 then "critical"
    else if total_risk ≥ 6 then "high"
    else if total_risk ≥ 4 then "medium"
    else "low"
  (account_analysis',
   { fake_account_risk_score := min total_risk 10
     threat_level := threat_level
     suspicious_flags := all_flags
     similarity_analysis := similarity_check
     account_details := account_analysis'
     recommendation := get_recommendation threat_level })

/-!
### SHA-256

`SimpleEvidenceVault.capture_evidence` calls `hashlib.sha256(...)`;
the library call is embedded as the FIPS 180-4 algorithm over byte
lists (bytes as `Nat < 256`, 32-bit words as `Nat` with arithmetic
modulo `2 ^ 32`).
-/

/-- `2 ^ 32`. -/
def w32 : Nat := 4294967296

/-- 32-bit word addition. -/
def wadd (a b : Nat) : Nat := (a + b) % w32

/-- 32-bit right rotation. -/
def rotr (n x : Nat) : Nat := ((x >>> n) ||| (x <<< (32 - n))) % w32

def bigS0 (x : Nat) : Nat := (rotr 2 x) ^^^ (rotr 13 x) ^^^ (rotr 22 x)

def bigS1 (x : Nat) : Nat := (rotr 6 x) ^^^ (rotr 11 x) ^^^ (rotr 25 x)

def smallS0 (x : Nat) : Nat := (rotr 7 x) ^^^ (rotr 18 x) ^^^ (x >>> 3)

def smallS1 (x : Nat) : Nat := (rotr 17 x) ^^^ (rotr 19 x) ^^^ (x >>> 10)

def chF (x y z : Nat) : Nat := (x &&& y) ^^^ ((x ^^^ 4294967295) &&& z)

def majF (x y z : Nat) : Nat := (x &&& y) ^^^ (x &&& z) ^^^ (y &&& z)

/-- The SHA-256 round constants. -/
def sha256K : List Nat :=
  [1116352408, 1899447441, 3049323471, 3921009573, 961987163,
   1508970993, 2453635748, 2870763221, 3624381080, 310598401,
   607225278, 1426881987, 1925078388, 2162078206, 2614888103,
   3248222580, 3835390401, 4022224774, 264347078, 604807628,
   770255983, 1249150122, 1555081692, 1996064986, 2554220882,
   2821834349, 2952996808, 3210313671, 3336571891, 3584528711,
   113926993, 338241895, 666307205, 773529912, 1294757372,
   1396182291, 1695183700, 1986661051, 2177026350, 2456956037,
   2730485921, 2820302411, 3259730800, 3345764771, 3516065817,
   3600352804, 4094571909, 275423344, 430227734, 506948616,
   659060556, 883997877, 958139571, 1322822218, 1537002063,
   1747873779, 1955562222, 2024104815, 2227730452, 2361852424,
   2428436474, 2756734187, 3204031479, 3329325298]

/-- The eight 32-bit working variables of a SHA-256 state. -/
structure Sha256State where
  a : Nat
  b : Nat
  c : Nat
  d : Nat
  e : Nat
  f : Nat
  g : Nat
  h : Nat
deriving DecidableEq, Repr

/-- The SHA-256 initial hash value. -/
def sha256Init : Sha256State :=
  ⟨1779033703, 3144134277, 1013904242, 2773480762,
   1359893119, 2600822924, 528734635, 1541459225⟩

/-- One SHA-256 compression round. -/
def sha256Round (s : Sha256State) (kt wt : Nat) : Sha256State :=
  let t1 := wadd (wadd (wadd (wadd s.h (bigS1 s.e)) (chF s.e s.f s.g)) kt) wt
  let t2 := wadd (bigS0 s.a) (majF s.a s.b s.c)
  ⟨wadd t1 t2, s.a, s.b, s.c, wadd s.d t1, s.e, s.f, s.g⟩

/-- Big-endian 4-byte groups to 32-bit words. -/
def toWordsBE : List Nat → List Nat
  | b3 :: b2 :: b1 :: b0 :: rest =>
      (b3 * 16777216 + b2 * 65536 + b1 * 256 + b0) :: toWordsBE rest
  | _ => []

/-- The 64-entry message schedule of one 64-byte block:
`W[t] = σ1(W[t-2]) + W[t-7] + σ0(W[t-15]) + W[t-16]` for `t ≥ 16`. -/
def sha256Schedule (block : List Nat) : List Nat :=
  (List.range 48).foldl
    (fun w i =>
      w ++ [wadd (wadd (smallS1 (w.getD (i + 14) 0)) (w.getD (i + 9) 0))
              (wadd (smallS0 (w.getD (i + 1) 0)) (w.getD i 0))])
    (toWordsBE block)

/-- Compression of one 64-byte block into the running state. -/
def sha256Compress (st : Sha256State) (block : List Nat) : Sha256State :=
  let final := ((sha256K).zip (sha256Schedule block)).foldl
    (fun s kw => sha256Round s kw.1 kw.2) st
  ⟨wadd st.a final.a, wadd st.b final.b, wadd st.c final.c, wadd st.d final.d,
   wadd st.e final.e, wadd st.f final.f, wadd st.g final.g, wadd st.h final.h⟩

/-- SHA-256 padding: `0x80`, zeros to 56 mod 64, then the 8-byte
big-endian bit length. -/
def sha256Pad (msg : List Nat) : List Nat :=
  let l := msg.length
  let n := 8 * l
  msg ++ 128 :: List.replicate ((64 - ((l + 9) % 64)) % 64) 0 ++
    [(n >>> 56) &&& 255, (n >>> 48) &&& 255, (n >>> 40) &&& 255,
     (n >>> 32) &&& 255, (n >>> 24) &&& 255, (n >>> 16) &&& 255,
     (n >>> 8) &&& 255, n &&& 255]

/-- Split a byte list into 64-byte blocks (structural recursion on a
fuel bound, so that the definition reduces inside the kernel; the fuel
`l.length` dominates the number of blocks). -/
def chunks64Aux : Nat → List Nat → List (List Nat)
  | 0, _ => []
  | _, [] => []
  | fuel + 1, x :: t => ((x :: t).take 64) :: chunks64Aux fuel ((x :: t).drop 64)

/-- Split a byte list into 64-byte blocks. -/
def chunks64 (l : List Nat) : List (List Nat) := chunks64Aux l.length l

/-- Big-endian bytes of one 32-bit word. -/
def wordBytesBE (x : Nat) : List Nat :=
  [(x >>> 24) &&& 255, (x >>> 16) &&& 255, (x >>> 8) &&& 255, x &&& 255]

/-- SHA-256 digest (32 bytes) of a byte list. -/
def sha256Bytes (msg : List Nat) : List Nat :=
  let fin := (chunks64 (sha256Pad msg)).foldl sha256Compress sha256Init
  wordBytesBE fin.a ++ wordBytesBE fin.b ++ wordBytesBE fin.c ++
    wordBytesBE fin.d ++ wordBytesBE fin.e ++ wordBytesBE fin.f ++
    wordBytesBE fin.g ++ wordBytesBE fin.h

/-- Lowercase hex digit. -/
def hexDigitChar (n : Nat) : Char :=
  Char.ofNat (if n < 10 then 48 + n else 87 + n)

/-- Two lowercase hex characters of one byte. -/
def byteHex (b : Nat) : List Char := [hexDigitChar (b / 16), hexDigitChar (b % 16)]

/-- UTF-8 encoding of one character (Python `str.encode()`). -/
def utf8Char (c : Char) : List Nat :=
  let n := c.toNat
  if n < 128 then [n]
  else if n < 2048 then [192 + n / 64, 128 + n % 64]
  else if n < 65536 then [224 + n / 4096, 128 + (n / 64) % 64, 128 + n % 64]
  else [240 + n / 262144, 128 + (n / 4096) % 64, 128 + (n / 64) % 64, 128 + n % 64]

/-- UTF-8 bytes of a string. -/
def strBytes (s : String) : List Nat := s.data.flatMap utf8Char

/-- `hashlib.sha256(s.encode()).hexdigest()`. -/
def sha256Hex (s : String) : String := ⟨(sha256Bytes (strBytes s)).flatMap byteHex⟩

/-- Python slice `s[:n]`. -/
def pyTake (n : Nat) (s : String) : String := ⟨s.data.take n⟩

/-- The dict returned by `SimpleEvidenceVault.capture_evidence`
(alert_system.py, lines 172-195). -/
structure EvidenceHandle where
  evidence_id : String
  blockchain_hash : String
  capture_time : String
  integrity_hash : String
deriving DecidableEq, Repr

/-- `SimpleEvidenceVault.capture_evidence`: the capture timestamp
(`datetime.now().isoformat()`) enters as an explicit parameter.
`evidence_id` is the first 16 hex characters of the SHA-256 of
`content ++ timestamp`; `integrity_hash` is the SHA-256 of the content
alone; `blockchain_simulation` salts with `"vip_guardian"`.  The
metadata argument is only persisted to the evidence file, never hashed,
so it does not appear among the returned fields. -/
def capture_evidence (content : String) (timestamp : String) : EvidenceHandle :=
  { evidence_id := pyTake 16 (sha256Hex (content ++ timestamp))
    blockchain_hash := sha256Hex (content ++ timestamp ++ "vip_guardian")
    capture_time := timestamp
    integrity_hash := sha256Hex content }

/-- An entry of the in-memory `active_alerts` registry
(`SimpleCrisisEngine.process_threat`, alert_system.py lines 269-275). -/
structure AlertEntry where
  threat_data : ThreatData
  alert_results : List ChannelResult
  created_at : String
deriving DecidableEq, Repr

/-- The mutable state of a `SimpleCrisisEngine` instance: the Telegram
configuration flag of its `TelegramAlertSystem` and the
`active_alerts` dict, modelled as a lookup function. -/
structure EngineState where
  telegram_enabled : Bool
  active_alerts : String → Option AlertEntry

/-- The response dict `process_threat` returns to the API caller. -/
structure ProcessResponse where
  alert_id : String
  threat_level : String
  threat_score : ℚ
  evidence_captured : Bool
  evidence_id : String
  telegram_sent : Bool
  blockchain_hash : String
  total_cost : String
deriving DecidableEq, Repr

/-- `SimpleCrisisEngine.process_threat` (alert_system.py, lines
205-291).  External effects enter as parameters: `now` stands for the
`datetime.now().isoformat()` reads of the invocation, `transport` for
the Telegram delivery outcome, `archiveOutcome` for the Wayback
archival result (`archive_url_on_wayback` returns the archived URL or
`None`, never raising).  The archived URL and the evidence metadata
only go into the persisted evidence file, which no claim reads.  Over
the typed inputs the body is total, so the surrounding `try/except`
re-raise is never taken.  The registry write
`self.active_alerts[alert_id] = {...}` is an unconditional dict
assignment. -/
def process_threat (st : EngineState) (now : String)
    (transport : TransportOutcome) (archiveOutcome : Option String)
    (analysis_result : AnalysisResult) (content vip_handle platform : String)
    (url : Option String) (fake_account_analysis : Option FakeReport) :
    EngineState × ProcessResponse :=
  let dissonance_score := analysis_result.dissonance_score.getD 0
  let drift_score := analysis_result.drift_score.getD 0
  let fake_score :=
    match fake_account_analysis with
    | none => 0
    | some r => r.fake_account_risk_score.getD (r.risk_score.getD 0)
  let classification := classify_threat dissonance_score drift_score content fake_score
  let evidence_data := capture_evidence content now
  let threat_data : ThreatData :=
    { vip_handle := vip_handle
      content := content
      platform := platform
      url := url
      timestamp := now
      classification := classification
      analysis_reason := analysis_result.justification.getD "AI analysis completed"
      evidence_id := evidence_data.evidence_id
      blockchain_hash := evidence_data.blockchain_hash
      fake_account_analysis := fake_account_analysis }
  let console_result := send_console_alert threat_data
  let alert_results :=
    [console_result] ++
      (if ["medium", "high", "critical"].contains classification.level then
        [(send_telegram_alert st.telegram_enabled transport threat_data).1]
      else [])
  let alert_id := evidence_data.evidence_id
  let entry : AlertEntry := ⟨threat_data, alert_results, now⟩
  let st' : EngineState :=
    { st with
      active_alerts := fun k => if k = alert_id then some entry else st.active_alerts k }
  (st',
   { alert_id := alert_id
     threat_level := classification.level
     threat_score := classification.score
     evidence_captured := true
     evidence_id := evidence_data.evidence_id
     telegram_sent := alert_results.any fun r =>
       r.channel = some "telegram" && r.status = "sent"
     blockchain_hash := evidence_data.blockchain_hash
     total_cost := "$0.00" })

/-- The attribute names defined on `SimpleCrisisEngine`
(alert_system.py, lines 197-291): the three fields assigned in
`__init__` and its only method, `process_threat`. -/
def simpleCrisisEngineAttrs : List String :=
  ["telegram_alerts", "evidence_vault", "active_alerts", "process_threat"]

/-- Python attribute resolution on a `SimpleCrisisEngine` object. -/
def engineLookupAttr (name : String) : Option String :=
  if simpleCrisisEngineAttrs.contains name then some name else none

/-- Result of one call of a FastAPI endpoint: a payload, an
`HTTPException(404)` raised by the handler, or an uncaught exception
that FastAPI surfaces as an HTTP 500 server error. -/
inductive EndpointResult where
  | ok (entry : AlertEntry)
  | notFound (detail : String)
  | serverError (detail : String)
deriving DecidableEq, Repr

/-- `get_alert_details`, the `/alerts/{alert_id}` endpoint (main.py,
lines 183-188).  Its body evaluates
`crisis_engine.get_alert_status(alert_id)`; the attribute is resolved
dynamically, and `SimpleCrisisEngine` defines no `get_alert_status`, so
the resolution raises `AttributeError`.  The handler catches nothing,
hence the call ends as an HTTP 500 server error whatever the registry
holds.  (No body for a `some` branch exists anywhere in the
repository; that branch is unreachable since the lookup fails.) -/
def get_alert_details (st : EngineState) (alert_id : String) : EndpointResult :=
  match engineLookupAttr "get_alert_status" with
  | none =>
      .serverError
        "AttributeError: 'SimpleCrisisEngine' object has no attribute 'get_alert_status'"
  | some _ => .serverError "unreachable"

/-!
### difflib.SequenceMatcher

`FakeAccountDetector.check_username_similarity` calls
`difflib.SequenceMatcher(None, a, b).ratio()`.  The library call is
embedded from CPython's `Lib/difflib.py`, specialised to
`isjunk = None` (so the junk set `bjunk` is empty and the two
junk-extension loops of `find_longest_match` never fire) with the
default `autojunk = True`.
-/

/-- `__chain_b`'s autojunk rule: an element of `b` is "popular" when
`b` has at least 200 elements and the element occurs more than
`len(b) // 100 + 1` times. -/
def isPopular (b : List Char) (c : Char) : Bool :=
  decide (200 ≤ b.length) && decide (b.length / 100 + 1 < b.count c)

/-- `self.b2j.get(c, [])` after `__chain_b`: the ascending positions of
`c` in `b`, with popular elements purged to the empty list. -/
def b2j (b : List Char) (c : Char) : List Nat :=
  if isPopular b c then []
  else (List.range b.length).filter (fun j => b.getD j ' ' = c)

/-- The `besti, bestj, bestsize` triple of `find_longest_match`. -/
structure FlmState where
  besti : Nat
  bestj : Nat
  bestsize : Nat
deriving DecidableEq, Repr

/-- The inner loop of `find_longest_match` over the positions `js` of
`a[i]` in `b`: `j < blo` is skipped (`continue`), `j ≥ bhi` stops the
loop (`break`; the position lists are ascending), and otherwise
`k = newj2len[j] = j2len.get(j-1, 0) + 1` with the best block updated
on strictly greater length.  Dicts are functions defaulting to 0; the
`j = 0` guard renders Python's `j2len.get(-1, 0)`. -/
def flmInner (i blo bhi : Nat) (j2len : Nat → Nat) :
    List Nat → FlmState → (Nat → Nat) → FlmState × (Nat → Nat)
  | [], st, new => (st, new)
  | j :: js, st, new =>
      if j < blo then flmInner i blo bhi j2len js st new
      else if bhi ≤ j then (st, new)
      else
        let k := (if j = 0 then 0 else j2len (j - 1)) + 1
        let new' := fun x => if x = j then k else new x
        -- Python `i-k+1` / `j-k+1` over ints; `k ≤ i+1` and `k ≤ j+1`
        -- in every reachable state, so the order of operations below
        -- computes the same value without ℕ-truncation
        let st' := if st.bestsize < k then FlmState.mk (i + 1 - k) (j + 1 - k) k else st
        flmInner i blo bhi j2len js st' new'

/-- The outer loop of `find_longest_match`: `for i in range(alo, ahi)`,
threading `j2len = newj2len` between rounds. -/
def flmLoop (a b : List Char) (blo bhi ahi : Nat) (i : Nat)
    (j2len : Nat → Nat) (st : FlmState) : FlmState :=
  if _h : i < ahi then
    let r := flmInner i blo bhi j2len (b2j b (a.getD i ' ')) st (fun _ => 0)
    flmLoop a b blo bhi ahi (i + 1) r.2 r.1
  else st
termination_by ahi - i

/-- First extension loop of `find_longest_match` (with `bjunk` empty):
extend the block downwards while the adjacent characters are equal. -/
def extendLower (a b : List Char) (alo blo : Nat) (st : FlmState) : FlmState :=
  if _h : alo < st.besti ∧ blo < st.bestj ∧
      a.getD (st.besti - 1) ' ' = b.getD (st.bestj - 1) ' ' then
    extendLower a b alo blo ⟨st.besti - 1, st.bestj - 1, st.bestsize + 1⟩
  else st
termination_by st.besti
decreasing_by omega

/-- Second extension loop of `find_longest_match` (with `bjunk`
empty): extend the block upwards while the adjacent characters are
equal. -/
def extendUpper (a b : List Char) (ahi bhi : Nat) (st : FlmState) : FlmState :=
  if _h : st.besti + st.bestsize < ahi ∧ st.bestj + st.bestsize < bhi ∧
      a.getD (st.besti + st.bestsize) ' ' = b.getD (st.bestj + st.bestsize) ' ' then
    extendUpper a b ahi bhi ⟨st.besti, st.bestj, st.bestsize + 1⟩
  else st
termination_by ahi - st.bestsize
decreasing_by omega

/-- `SequenceMatcher.find_longest_match` on the window
`a[alo:ahi] × b[blo:bhi]`, for `isjunk = None`: the dynamic program,
then the two non-junk extension loops (the junk ones are no-ops). -/
def find_longest_match (a b : List Char) (alo ahi blo bhi : Nat) : FlmState :=
  extendUpper a b ahi bhi
    (extendLower a b alo blo (flmLoop a b blo bhi ahi alo (fun _ => 0) ⟨alo, blo, 0⟩))

/-- Well-formedness of a match against its window. -/
def StOk (alo ahi blo bhi : Nat) (st : FlmState) : Prop :=
  alo ≤ st.besti ∧ blo ≤ st.bestj ∧
    st.besti + st.bestsize ≤ ahi ∧ st.bestj + st.bestsize ≤ bhi

/-- Helper: the inner loop preserves window well-formedness of the
best block and the value bounds of the length dict. -/
theorem flmInner_bounds (i blo bhi alo ahi : Nat) (j2len : Nat → Nat)
    (js : List Nat) (st : FlmState) (new : Nat → Nat)
    (hi1 : alo ≤ i) (hi2 : i < ahi)
    (hold : ∀ x, j2len x ≤ i - alo ∧ j2len x ≤ x + 1 - blo)
    (hst : StOk alo ahi blo bhi st)
    (hnew : ∀ x, new x ≤ i + 1 - alo ∧ new x ≤ x + 1 - blo) :
    StOk alo ahi blo bhi (flmInner i blo bhi j2len js st new).1 ∧
    (∀ x, (flmInner i blo bhi j2len js st new).2 x ≤ i + 1 - alo ∧
      (flmInner i blo bhi j2len js st new).2 x ≤ x + 1 - blo) := by
  induction js generalizing st new with
  | nil => exact ⟨hst, hnew⟩
  | cons j js ih =>
    by_cases h1 : j < blo
    · rw [show flmInner i blo bhi j2len (j :: js) st new
          = flmInner i blo bhi j2len js st new by rw [flmInner]; rw [if_pos h1]]
      exact ih st new hst hnew
    · by_cases h2 : bhi ≤ j
      · rw [show flmInner i blo bhi j2len (j :: js) st new = (st, new) by
          rw [flmInner]; rw [if_neg h1, if_pos h2]]
        exact ⟨hst, hnew⟩
      · rw [show flmInner i blo bhi j2len (j :: js) st new
            = flmInner i blo bhi j2len js
                (if st.bestsize < (if j = 0 then 0 else j2len (j - 1)) + 1 then
                  FlmState.mk (i + 1 - ((if j = 0 then 0 else j2len (j - 1)) + 1))
                    (j + 1 - ((if j = 0 then 0 else j2len (j - 1)) + 1))
                    ((if j = 0 then 0 else j2len (j - 1)) + 1)
                else st)
                (fun x => if x = j then (if j = 0 then 0 else j2len (j - 1)) + 1
                  else new x) by
            rw [flmInner]; rw [if_neg h1, if_neg h2]]
        have hk1 : (if j = 0 then 0 else j2len (j - 1)) + 1 ≤ i + 1 - alo := by
          split
          · omega
          · have := (hold (j - 1)).1
            omega
        have hk2 : (if j = 0 then 0 else j2len (j - 1)) + 1 ≤ j + 1 - blo := by
          split
          · omega
          · have := (hold (j - 1)).2
            omega
        apply ih
        · dsimp only [StOk] at hst ⊢
          by_cases hcmp : st.bestsize < (if j = 0 then 0 else j2len (j - 1)) + 1
          · rw [if_pos hcmp]
            dsimp only
            refine ⟨by omega, by omega, by omega, by omega⟩
          · rw [if_neg hcmp]
            exact hst
        · intro x
          by_cases hx : x = j
          · simp only [hx, if_pos rfl]
            exact ⟨hk1, hk2⟩
          · simp only [if_neg hx]
            exact hnew x

/-- Helper: the outer loop preserves window well-formedness. -/
theorem flmLoop_bounds (a b : List Char) (blo bhi ahi alo : Nat) (i : Nat)
    (j2len : Nat → Nat) (st : FlmState)
    (hi1 : alo ≤ i)
    (hold : ∀ x, j2len x ≤ i - alo ∧ j2len x ≤ x + 1 - blo)
    (hst : StOk alo ahi blo bhi st) :
    StOk alo ahi blo bhi (flmLoop a b blo bhi ahi i j2len st) := by
  unfold flmLoop
  split
  · rename_i hlt
    have h := flmInner_bounds i blo bhi alo ahi j2len (b2j b (a.getD i ' ')) st
      (fun _ => 0) hi1 hlt hold hst (fun x => ⟨Nat.zero_le _, Nat.zero_le _⟩)
    exact flmLoop_bounds a b blo bhi ahi alo (i + 1) _ _ (by omega)
      (fun x => ⟨by have := (h.2 x).1; omega, (h.2 x).2⟩) h.1
  · exact hst
termination_by ahi - i

/-- Helper: the lower extension loop preserves window
well-formedness. -/
theorem extendLower_bounds (a b : List Char) (alo blo ahi bhi : Nat)
    (st : FlmState) (hst : StOk alo ahi blo bhi st) :
    StOk alo ahi blo bhi (extendLower a b alo blo st) := by
  unfold extendLower
  split
  · rename_i hcond
    apply extendLower_bounds
    dsimp only [StOk] at hst ⊢
    refine ⟨by omega, by omega, by omega, by omega⟩
  · exact hst
termination_by st.besti
decreasing_by omega

/-- Helper: the upper extension loop preserves window
well-formedness. -/
theorem extendUpper_bounds (a b : List Char) (alo blo ahi bhi : Nat)
    (st : FlmState) (hst : StOk alo ahi blo bhi st) :
    StOk alo ahi blo bhi (extendUpper a b ahi bhi st) := by
  unfold extendUpper
  split
  · rename_i hcond
    apply extendUpper_bounds
    dsimp only [StOk] at hst ⊢
    refine ⟨by omega, by omega, by omega, by omega⟩
  · exact hst
termination_by ahi - st.bestsize
decreasing_by omega

/-- Helper: `find_longest_match` returns a block inside its window. -/
theorem find_longest_match_bounds (a b : List Char) (alo ahi blo bhi : Nat)
    (h1 : alo ≤ ahi) (h2 : blo ≤ bhi) :
    StOk alo ahi blo bhi (find_longest_match a b alo ahi blo bhi) := by
  apply extendUpper_bounds
  apply extendLower_bounds
  apply flmLoop_bounds a b blo bhi ahi alo alo _ _ le_rfl
    (fun x => ⟨by omega, by omega⟩)
  exact ⟨le_rfl, le_rfl, by show alo + 0 ≤ ahi; omega, by show blo + 0 ≤ bhi; omega⟩

/-- The total number of matched elements summed over
`get_matching_blocks`: the recursion of `get_matching_blocks` (the
worklist traversal recursing left and right of each non-empty longest
match; traversal order and the final adjacent-block merge do not change
the sum, which is all `ratio()` reads). -/
def matchedTotal (a b : List Char) (alo ahi blo bhi : Nat) : Nat :=
  if hw : alo ≤ ahi ∧ blo ≤ bhi then
    let st := find_longest_match a b alo ahi blo bhi
    if hk : st.bestsize = 0 then 0
    else
      matchedTotal a b alo st.besti blo st.bestj + st.bestsize +
        matchedTotal a b (st.besti + st.bestsize) ahi (st.bestj + st.bestsize) bhi
  else 0
termination_by (ahi - alo) + (bhi - blo)
decreasing_by
  · have hb := find_longest_match_bounds a b alo ahi blo bhi hw.1 hw.2
    dsimp only [StOk] at hb
    have hk' : ¬ (find_longest_match a b alo ahi blo bhi).bestsize = 0 := hk
    omega
  · have hb := find_longest_match_bounds a b alo ahi blo bhi hw.1 hw.2
    dsimp only [StOk] at hb
    have hk' : ¬ (find_longest_match a b alo ahi blo bhi).bestsize = 0 := hk
    omega

/-- The length of the longest common popular-free suffix of `l` with
itself ending at positions `(i, j)` — the mathematical value of the
`j2len` chains of the dynamic program run on `(l, l)` over the full
window. -/
def csuf (l : List Char) (i j : Nat) : Nat :=
  if j < l.length ∧ l.getD i ' ' = l.getD j ' ' ∧
      isPopular l (l.getD j ' ') = false then
    (if i = 0 ∨ j = 0 then 1 else csuf l (i - 1) (j - 1) + 1)
  else 0
termination_by i
decreasing_by omega

/-- The `j2len` dict that round `i` of the dynamic program on `(l, l)`
starts from: zero in round 0, the chain values of round `i - 1`
afterwards. -/
def prevJ2 (l : List Char) (i : Nat) : Nat → Nat :=
  fun j => if i = 0 then 0 else csuf l (i - 1) j

/-- Helper: membership in a `b2j` position list. -/
theorem b2j_mem {l : List Char} {c : Char} {j : Nat} :
    j ∈ b2j l c ↔
      isPopular l c = false ∧ j < l.length ∧ l.getD j ' ' = c := by
  unfold b2j
  by_cases hp : isPopular l c = true
  · simp [hp]
  · simp only [Bool.not_eq_true] at hp
    simp [hp, List.mem_filter, List.mem_range, and_comm]

/-- Helper: `b2j` position lists are strictly ascending. -/
theorem b2j_sorted (l : List Char) (c : Char) :
    (b2j l c).Sorted (· < ·) := by
  unfold b2j
  split
  · exact List.sorted_nil
  · exact (List.pairwise_lt_range _).filter _

/-- Helper: a chain is never longer than its diagonal distance. -/
theorem csuf_le_left (l : List Char) (i j : Nat) : csuf l i j ≤ i + 1 := by
  unfold csuf
  split
  · split
    · omega
    · have := csuf_le_left l (i - 1) (j - 1)
      omega
  · omega
termination_by i
decreasing_by omega

/-- Helper: a chain is never longer than its co-diagonal distance. -/
theorem csuf_le_right (l : List Char) (i j : Nat) : csuf l i j ≤ j + 1 := by
  unfold csuf
  split
  · split
    · omega
    · have := csuf_le_right l (i - 1) (j - 1)
      omega
  · omega
termination_by i
decreasing_by omega

/-- Helper: a positive chain value forces its position into the
`b2j` list of the matching character. -/
theorem csuf_pos_mem_b2j {l : List Char} {i j : Nat}
    (h : csuf l i j ≠ 0) : j ∈ b2j l (l.getD i ' ') := by
  rw [csuf] at h
  split at h
  · rename_i hc
    exact b2j_mem.mpr ⟨by rw [hc.2.1]; exact hc.2.2, hc.1, hc.2.1.symm⟩
  · omega

/-- Helper: the `k` computed by the inner loop at position `j` of round
`i` is exactly the chain value `csuf l i j`. -/
theorem kval_eq_csuf {l : List Char} {i j : Nat}
    (hj : j ∈ b2j l (l.getD i ' ')) :
    (if j = 0 then 0 else prevJ2 l i (j - 1)) + 1 = csuf l i j := by
  obtain ⟨hpop, hjn, hchar⟩ := b2j_mem.mp hj
  have hcond : j < l.length ∧ l.getD i ' ' = l.getD j ' ' ∧
      isPopular l (l.getD j ' ') = false :=
    ⟨hjn, hchar.symm, by rw [hchar]; exact hpop⟩
  rw [csuf, if_pos hcond]
  unfold prevJ2
  by_cases hj0 : j = 0
  · simp [hj0]
  · by_cases hi0 : i = 0
    · simp [hj0, hi0]
    · simp [hj0, hi0]

/-- Helper: dominance below the diagonal — a chain ending at `(i, j)`
with `j ≤ i` is no longer than the diagonal chain at `(j, j)`. -/
theorem csuf_dom_lower (l : List Char) (i j : Nat) (hji : j ≤ i) :
    csuf l i j ≤ csuf l j j := by
  rw [csuf]
  split
  · rename_i hc
    have hcj : j < l.length ∧ l.getD j ' ' = l.getD j ' ' ∧
        isPopular l (l.getD j ' ') = false := ⟨hc.1, rfl, hc.2.2⟩
    rw [show csuf l j j = if j < l.length ∧ l.getD j ' ' = l.getD j ' ' ∧
        isPopular l (l.getD j ' ') = false then
          (if j = 0 ∨ j = 0 then 1 else csuf l (j - 1) (j - 1) + 1)
        else 0 from by rw [csuf]]
    rw [if_pos hcj]
    by_cases h0 : i = 0 ∨ j = 0
    · rw [if_pos h0]
      split
      · omega
      · have := csuf_le_left l (j - 1) (j - 1)
        omega
    · rw [if_neg h0]
      rw [if_neg (by omega : ¬ (j = 0 ∨ j = 0))]
      have := csuf_dom_lower l (i - 1) (j - 1) (by omega)
      omega
  · omega
termination_by i
decreasing_by omega

/-- Helper: dominance above the diagonal — a chain ending at `(i, j)`
with `i ≤ j` is no longer than the diagonal chain at `(i, i)`. -/
theorem csuf_dom_upper (l : List Char) (i j : Nat) (hij : i ≤ j) :
    csuf l i j ≤ csuf l i i := by
  rw [csuf]
  split
  · rename_i hc
    have hci : i < l.length ∧ l.getD i ' ' = l.getD i ' ' ∧
        isPopular l (l.getD i ' ') = false :=
      ⟨by omega, rfl, by rw [hc.2.1]; exact hc.2.2⟩
    rw [show csuf l i i = if i < l.length ∧ l.getD i ' ' = l.getD i ' ' ∧
        isPopular l (l.getD i ' ') = false then
          (if i = 0 ∨ i = 0 then 1 else csuf l (i - 1) (i - 1) + 1)
        else 0 from by rw [csuf]]
    rw [if_pos hci]
    by_cases h0 : i = 0 ∨ j = 0
    · rw [if_pos h0]
      have h00 : i = 0 := by omega
      rw [if_pos (Or.inl h00)]
    · rw [if_neg h0]
      rw [if_neg (by omega : ¬ (i = 0 ∨ i = 0))]
      have := csuf_dom_upper l (i - 1) (j - 1) (by omega)
      omega
  · omega
termination_by i
decreasing_by omega

/-- Helper: the inner loop on `(l, l)` over the full window keeps the
best block on the diagonal and within the window, never shrinks it, and
bounds every chain value of the processed positions by the resulting
best size. -/
theorem flmInner_self (l : List Char) (i : Nat) (js : List Nat)
    (st : FlmState) (new : Nat → Nat)
    (hin : i < l.length)
    (hchar : ∀ j ∈ js, j ∈ b2j l (l.getD i ' '))
    (hsorted : js.Sorted (· < ·))
    (hdisj : i ∈ js ∨ ∀ j ∈ js, csuf l i j ≤ st.bestsize)
    (hdiag : st.besti = st.bestj)
    (hstok : StOk 0 l.length 0 l.length st)
    (hcov : ∀ i' j', i' < i → csuf l i' j' ≤ st.bestsize) :
    (flmInner i 0 l.length (prevJ2 l i) js st new).1.besti =
      (flmInner i 0 l.length (prevJ2 l i) js st new).1.bestj ∧
    StOk 0 l.length 0 l.length (flmInner i 0 l.length (prevJ2 l i) js st new).1 ∧
    st.bestsize ≤ (flmInner i 0 l.length (prevJ2 l i) js st new).1.bestsize ∧
    (∀ j ∈ js, csuf l i j ≤ (flmInner i 0 l.length (prevJ2 l i) js st new).1.bestsize) ∧
    (∀ i' j', i' < i → csuf l i' j' ≤ (flmInner i 0 l.length (prevJ2 l i) js st new).1.bestsize) := by
  induction js generalizing st new with
  | nil =>
    exact ⟨hdiag, hstok, le_rfl, by simp, hcov⟩
  | cons j js ih =>
    have hjmem := hchar j (List.mem_cons_self j js)
    obtain ⟨hpop, hjn, hcj⟩ := b2j_mem.mp hjmem
    have hsorted' := (List.sorted_cons.mp hsorted).2
    have hlt := (List.sorted_cons.mp hsorted).1
    have hstep : flmInner i 0 l.length (prevJ2 l i) (j :: js) st new
        = flmInner i 0 l.length (prevJ2 l i) js
            (if st.bestsize < (if j = 0 then 0 else prevJ2 l i (j - 1)) + 1 then
              FlmState.mk (i + 1 - ((if j = 0 then 0 else prevJ2 l i (j - 1)) + 1))
                (j + 1 - ((if j = 0 then 0 else prevJ2 l i (j - 1)) + 1))
                ((if j = 0 then 0 else prevJ2 l i (j - 1)) + 1)
            else st)
            (fun x => if x = j then (if j = 0 then 0 else prevJ2 l i (j - 1)) + 1
              else new x) := by
      rw [flmInner]
      rw [if_neg (by omega : ¬ j < 0), if_neg (by omega : ¬ l.length ≤ j)]
    rw [hstep]
    rw [kval_eq_csuf hjmem]
    rcases lt_trichotomy j i with hji | hji | hji
    · -- j below the diagonal: the chain is dominated by the earlier
      -- diagonal round j, so no update fires
      have hk : csuf l i j ≤ st.bestsize :=
        le_trans (csuf_dom_lower l i j (by omega)) (hcov j j hji)
      rw [if_neg (by omega)]
      have hdisj' : i ∈ js ∨ ∀ j' ∈ js, csuf l i j' ≤ st.bestsize := by
        rcases hdisj with h | h
        · left
          rcases List.mem_cons.mp h with h' | h'
          · omega
          · exact h'
        · right
          intro x hx
          exact h x (List.mem_cons_of_mem _ hx)
      have h := ih st (fun x => if x = j then csuf l i j else new x)
        (fun x hx => hchar x (List.mem_cons_of_mem _ hx))
        hsorted' hdisj' hdiag hstok hcov
      exact ⟨h.1, h.2.1, h.2.2.1,
        fun x hx => by
          rcases List.mem_cons.mp hx with h' | h'
          · subst h'
            exact le_trans hk h.2.2.1
          · exact h.2.2.2.1 x h',
        h.2.2.2.2⟩
    · -- the diagonal pair (i, i): after it the best size covers the
      -- diagonal chain, and any update keeps the block diagonal
      subst hji
      set st' := if st.bestsize < csuf l j j then
          FlmState.mk (j + 1 - csuf l j j) (j + 1 - csuf l j j) (csuf l j j)
        else st with hst'
      have hkle : csuf l j j ≤ j + 1 := csuf_le_right l j j
      have hdiag' : st'.besti = st'.bestj := by
        rw [hst']
        split
        · rfl
        · exact hdiag
      have hstok' : StOk 0 l.length 0 l.length st' := by
        rw [hst']
        dsimp only [StOk] at hstok ⊢
        split
        · dsimp only
          refine ⟨by omega, by omega, by omega, by omega⟩
        · exact hstok
      have hmono : st.bestsize ≤ st'.bestsize := by
        rw [hst']
        split
        · dsimp only
          omega
        · exact le_rfl
      have hcovd : csuf l j j ≤ st'.bestsize := by
        rw [hst']
        split
        · dsimp only
          omega
        · rename_i hno
          omega
      have hdisj' : j ∈ js ∨ ∀ j' ∈ js, csuf l j j' ≤ st'.bestsize := by
        right
        intro x hx
        exact le_trans (csuf_dom_upper l j x (le_of_lt (hlt x hx))) hcovd
      have h := ih st' (fun x => if x = j then csuf l j j else new x)
        (fun x hx => hchar x (List.mem_cons_of_mem _ hx))
        hsorted' hdisj' hdiag' hstok'
        (fun i' j' hi' => le_trans (hcov i' j' hi') hmono)
      exact ⟨h.1, h.2.1, le_trans hmono h.2.2.1,
        fun x hx => by
          rcases List.mem_cons.mp hx with h' | h'
          · subst h'
            exact le_trans hcovd h.2.2.1
          · exact h.2.2.2.1 x h',
        h.2.2.2.2⟩
    · -- j above the diagonal: the diagonal pair was already processed
      -- (it precedes j in the ascending list), so no update fires
      have hnotin : ¬ i ∈ j :: js := by
        intro hmem
        rcases List.mem_cons.mp hmem with h' | h'
        · omega
        · exact absurd (hlt i h') (by omega)
      have hall : ∀ j' ∈ j :: js, csuf l i j' ≤ st.bestsize := by
        rcases hdisj with h | h
        · exact absurd h hnotin
        · exact h
      have hk : csuf l i j ≤ st.bestsize := hall j (List.mem_cons_self j js)
      rw [if_neg (by omega)]
      have h := ih st (fun x => if x = j then csuf l i j else new x)
        (fun x hx => hchar x (List.mem_cons_of_mem _ hx))
        hsorted' (Or.inr fun x hx => hall x (List.mem_cons_of_mem _ hx))
        hdiag hstok hcov
      exact ⟨h.1, h.2.1, h.2.2.1,
        fun x hx => by
          rcases List.mem_cons.mp hx with h' | h'
          · subst h'
            exact le_trans hk h.2.2.1
          · exact h.2.2.2.1 x h',
        h.2.2.2.2⟩

/-- Helper: the inner loop (when no `break` fires) writes exactly the
processed positions into the fresh length dict. -/
theorem flmInner_writes (i bhi : Nat) (P : Nat → Nat) (js : List Nat)
    (st : FlmState) (new : Nat → Nat) (x : Nat)
    (hjs : ∀ j ∈ js, j < bhi) :
    (flmInner i 0 bhi P js st new).2 x =
      if x ∈ js then (if x = 0 then 0 else P (x - 1)) + 1 else new x := by
  induction js generalizing st new with
  | nil => simp [flmInner]
  | cons j js ih =>
    have hjb := hjs j (List.mem_cons_self j js)
    rw [show flmInner i 0 bhi P (j :: js) st new = flmInner i 0 bhi P js
        (if st.bestsize < (if j = 0 then 0 else P (j - 1)) + 1 then
          FlmState.mk (i + 1 - ((if j = 0 then 0 else P (j - 1)) + 1))
            (j + 1 - ((if j = 0 then 0 else P (j - 1)) + 1))
            ((if j = 0 then 0 else P (j - 1)) + 1)
        else st)
        (fun y => if y = j then (if j = 0 then 0 else P (j - 1)) + 1 else new y)
        from by rw [flmInner]; rw [if_neg (by omega), if_neg (by omega)]]
    rw [ih _ _ (fun a ha => hjs a (List.mem_cons_of_mem _ ha))]
    by_cases hx : x ∈ js
    · rw [if_pos hx, if_pos (List.mem_cons_of_mem _ hx)]
    · rw [if_neg hx]
      by_cases hxj : x = j
      · subst hxj
        rw [if_pos rfl, if_pos (List.mem_cons_self x js)]
      · rw [if_neg hxj, if_neg (by simp [List.mem_cons, hxj, hx])]

/-- Helper: on `(l, l)` over the full window, the outer loop keeps the
best block on the diagonal and inside the window. -/
theorem flmLoop_self (l : List Char) (i : Nat) (P : Nat → Nat) (st : FlmState)
    (hP : P = prevJ2 l i)
    (hdiag : st.besti = st.bestj)
    (hstok : StOk 0 l.length 0 l.length st)
    (hcov : ∀ i' j', i' < i → csuf l i' j' ≤ st.bestsize) :
    (flmLoop l l 0 l.length l.length i P st).besti =
      (flmLoop l l 0 l.length l.length i P st).bestj ∧
    StOk 0 l.length 0 l.length (flmLoop l l 0 l.length l.length i P st) := by
  unfold flmLoop
  split
  · rename_i hlt
    subst hP
    have hdisj : i ∈ b2j l (l.getD i ' ') ∨
        ∀ j ∈ b2j l (l.getD i ' '), csuf l i j ≤ st.bestsize := by
      by_cases hp : isPopular l (l.getD i ' ') = false
      · exact Or.inl (b2j_mem.mpr ⟨hp, hlt, rfl⟩)
      · right
        intro j hj
        exact absurd (b2j_mem.mp hj).1 hp
    have h := flmInner_self l i (b2j l (l.getD i ' ')) st (fun _ => 0) hlt
      (fun _ hx => hx) (b2j_sorted l _) hdisj hdiag hstok hcov
    have hw : (flmInner i 0 l.length (prevJ2 l i)
        (b2j l (l.getD i ' ')) st (fun _ => 0)).2 = prevJ2 l (i + 1) := by
      funext x
      rw [flmInner_writes i l.length (prevJ2 l i) _ st (fun _ => 0) x
        (fun j hj => (b2j_mem.mp hj).2.1)]
      by_cases hx : x ∈ b2j l (l.getD i ' ')
      · rw [if_pos hx, kval_eq_csuf hx]
        simp [prevJ2]
      · rw [if_neg hx]
        by_cases hc : csuf l i x = 0
        · simp [prevJ2, hc]
        · exact absurd (csuf_pos_mem_b2j hc) hx
    dsimp only
    rw [hw]
    exact flmLoop_self l (i + 1) _ _ rfl h.1 h.2.1
      (fun i' j' hi' => by
        by_cases hii : i' < i
        · exact h.2.2.2.2 i' j' hii
        · have hieq : i' = i := by omega
          subst hieq
          by_cases hc : csuf l i' j' = 0
          · omega
          · exact h.2.2.2.1 j' (csuf_pos_mem_b2j hc))
  · exact ⟨hdiag, hstok⟩
termination_by l.length - i

/-- Helper: the lower extension of a diagonal block on `(l, l)`
reaches the window start. -/
theorem extendLower_self (l : List Char) (x s : Nat) :
    extendLower l l 0 0 ⟨x, x, s⟩ = ⟨0, 0, s + x⟩ := by
  induction x generalizing s with
  | zero =>
    unfold extendLower
    rw [dif_neg (by simp)]
    simp
  | succ n ihx =>
    unfold extendLower
    rw [dif_pos ⟨Nat.succ_pos n, Nat.succ_pos n, rfl⟩]
    show extendLower l l 0 0 ⟨n + 1 - 1, n + 1 - 1, s + 1⟩ = _
    rw [show n + 1 - 1 = n from rfl, ihx (s + 1)]
    congr 1
    omega

/-- Helper: the upper extension of a window-initial diagonal block on
`(l, l)` reaches the window end. -/
theorem extendUpper_self (l : List Char) (n k : Nat) (hk : k ≤ n) :
    extendUpper l l n n ⟨0, 0, k⟩ = ⟨0, 0, n⟩ := by
  suffices H : ∀ m k, k ≤ n → n - k = m → extendUpper l l n n ⟨0, 0, k⟩ = ⟨0, 0, n⟩
    from H (n - k) k hk rfl
  intro m
  induction m with
  | zero =>
    intro k hk hm
    unfold extendUpper
    rw [dif_neg (by dsimp only; omega)]
    have : k = n := by omega
    rw [this]
  | succ m ihm =>
    intro k hk hm
    unfold extendUpper
    rw [dif_pos ⟨by dsimp only; omega, by dsimp only; omega, rfl⟩]
    exact ihm (k + 1) (by omega) (by omega)

/-- Helper: `find_longest_match` on `(l, l)` over the full window is
the full diagonal block. -/
theorem flm_self (l : List Char) :
    find_longest_match l l 0 l.length 0 l.length = ⟨0, 0, l.length⟩ := by
  unfold find_longest_match
  have h := flmLoop_self l 0 (fun _ => 0) ⟨0, 0, 0⟩
    (by funext x; simp [prevJ2]) rfl
    ⟨le_rfl, le_rfl, by simp, by simp⟩
    (fun i' j' hlt => absurd hlt (Nat.not_lt_zero i'))
  set st := flmLoop l l 0 l.length l.length 0 (fun _ => 0) ⟨0, 0, 0⟩ with hst
  obtain ⟨hd, hok⟩ := h
  have hrepr : st = ⟨st.besti, st.besti, st.bestsize⟩ := by
    conv_lhs => rw [show st = ⟨st.besti, st.bestj, st.bestsize⟩ from rfl]
    rw [hd]
  rw [hrepr, extendLower_self]
  have hle : st.bestsize + st.besti ≤ l.length := by
    have := hok.2.2.1
    omega
  rw [extendUpper_self l l.length _ hle]

/-- Helper: `find_longest_match` on an a-empty window is the empty
block. -/
theorem flm_degenerate (a b : List Char) (alo blo bhi : Nat) :
    find_longest_match a b alo alo blo bhi = ⟨alo, blo, 0⟩ := by
  unfold find_longest_match flmLoop
  rw [dif_neg (lt_irrefl alo)]
  unfold extendLower
  rw [dif_neg (fun h => absurd h.1 (lt_irrefl alo))]
  unfold extendUpper
  rw [dif_neg (by dsimp only; omega)]

/-- Helper: the matched total over a degenerate window is zero. -/
theorem matchedTotal_degenerate (a b : List Char) (x y : Nat) :
    matchedTotal a b x x y y = 0 := by
  rw [matchedTotal]
  rw [dif_pos ⟨le_rfl, le_rfl⟩]
  simp only [flm_degenerate]
  simp

/-- Helper: on identical sequences every element is matched. -/
theorem matchedTotal_self (l : List Char) :
    matchedTotal l l 0 l.length 0 l.length = l.length := by
  rw [matchedTotal]
  rw [dif_pos ⟨Nat.zero_le _, Nat.zero_le _⟩]
  simp only [flm_self]
  by_cases hn : l.length = 0
  · rw [dif_pos (show (⟨0, 0, l.length⟩ : FlmState).bestsize = 0 from hn)]
    exact hn.symm
  · rw [dif_neg (show ¬ (⟨0, 0, l.length⟩ : FlmState).bestsize = 0 from hn)]
    show matchedTotal l l 0 0 0 0 + l.length +
      matchedTotal l l (0 + l.length) l.length (0 + l.length) l.length = l.length
    simp only [Nat.zero_add]
    rw [matchedTotal_degenerate, matchedTotal_degenerate]
    omega

/-- `SequenceMatcher.ratio()`:
`2.0 * matches / (len(a) + len(b))`, and 1.0 when both sequences are
empty (`_calculate_ratio`). -/
def pyRatio (a b : List Char) : ℚ :=
  let matchSum := matchedTotal a b 0 a.length 0 b.length
  let length := a.length + b.length
  if length = 0 then 1 else 2 * (matchSum : ℚ) / (length : ℚ)

/-- `difflib.SequenceMatcher(None, suspect.lower(), vip.lower()).ratio()`
as called in `check_username_similarity`. -/
def simRatio (suspect vip : String) : ℚ :=
  pyRatio (pyLower suspect).data (pyLower vip).data

/-- The loop of `check_username_similarity`: record every similarity
and keep the maximum (strict update, so the first handle attaining the
maximum is the closest match; `closest_match` starts as `None`). -/
def cusLoop (suspect : String) :
    List String → List (String × ℚ) → ℚ → Option String →
      List (String × ℚ) × ℚ × Option String
  | [], sims, mx, cm => (sims, mx, cm)
  | v :: rest, sims, mx, cm =>
      let similarity := simRatio suspect v
      if mx < similarity then
        cusLoop suspect rest (sims ++ [(v, similarity)]) similarity (some v)
      else
        cusLoop suspect rest (sims ++ [(v, similarity)]) mx cm

/-- `FakeAccountDetector.check_username_similarity`
(fake_account_detector.py, lines 121-144): the maximum similarity over
the handles (starting from 0.0), flagged suspicious exactly when
`0.7 <= max_similarity < 1.0`. -/
def check_username_similarity (suspect_username : String)
    (vip_handles : List String) : SimilarityCheck :=
  let r := cusLoop suspect_username vip_handles [] 0 none
  { is_suspicious_similarity := decide (7 / 10 ≤ r.2.1 ∧ r.2.1 < 1)
    max_similarity := r.2.1
    closest_vip_match := r.2.2
    all_similarities := r.1 }

end CogT

namespace CogT

/-- C3: on inputs within the documented scales (dissonance in [0,10],
drift in [0,100], impersonation in [0,10]) and any content string,
`classify_threat` coincides with the reference definition of spec §4.2. -/
theorem classify_threat_matches_spec (d dr f : ℚ) (c : String)
    (hd0 : 0 ≤ d) (hd1 : d ≤ 10) (hdr0 : 0 ≤ dr) (hdr1 : dr ≤ 100)
    (hf0 : 0 ≤ f) (hf1 : f ≤ 10) :
    classify_threat d dr c f = classifySpec d dr f c := by
  have hb0 : 0 ≤ max (max d (dr / 10)) f :=
    le_trans hd0 (le_trans (le_max_left _ _) (le_max_left _ _))
  have hdr10 : dr / 10 ≤ 10 := by linarith
  have hb1 : max (max d (dr / 10)) f ≤ 10 :=
    max_le (max_le hd1 hdr10) hf1
  unfold classify_threat classifySpec
  by_cases hc : critical_keywords.any (fun w => pyInStr w (pyLower c)) = true
  · simp only [hc, if_true]
    have h1 : max (0 : ℚ) (min 10 (max (max d (dr / 10)) f + 3)) =
        min 10 (max (max d (dr / 10)) f + 3) := by
      rw [max_eq_right]
      exact le_min (by norm_num) (by linarith)
    rw [h1]
  · simp only [hc, if_false, Bool.not_eq_true] at *
    simp only [hc, Bool.false_eq_true, if_false]
    by_cases hh : high_keywords.any (fun w => pyInStr w (pyLower c)) = true
    · simp only [hh, if_true]
      have h1 : max (0 : ℚ) (min 10 (max (max d (dr / 10)) f + 3 / 2)) =
          min 10 (max (max d (dr / 10)) f + 3 / 2) := by
        rw [max_eq_right]
        exact le_min (by norm_num) (by linarith)
      rw [h1]
    · simp only [hh, Bool.false_eq_true, if_false]
      have h1 : max (0 : ℚ) (min 10 (max (max d (dr / 10)) f + 0)) =
          max (max d (dr / 10)) f := by
        rw [add_zero, min_eq_right hb1, max_eq_right hb0]
      rw [h1]

/-- Witness for `classify_threat_matches_spec` at dissonance 3, drift 50,
content "hello", impersonation 2. -/
theorem classify_threat_matches_spec_witness :
    classify_threat 3 50 "hello" 2 = classifySpec 3 50 2 "hello" :=
  classify_threat_matches_spec 3 50 2 "hello" (by norm_num) (by norm_num)
    (by norm_num) (by norm_num) (by norm_num) (by norm_num)

/-- Helper: the empty content matches no critical keyword. -/
theorem anyCrit_empty :
    critical_keywords.any (fun w => pyInStr w (pyLower "")) = false := by decide

/-- Helper: the empty content matches no high keyword. -/
theorem anyHigh_empty :
    high_keywords.any (fun w => pyInStr w (pyLower "")) = false := by decide

/-- Helper: evaluation of the classifier on the all-zero input. -/
theorem classify_zero_eval : classify_threat 0 0 "" 0 = ⟨"low", 0⟩ := by
  unfold classify_threat
  simp only [anyCrit_empty, anyHigh_empty, Bool.false_eq_true, if_false,
    zero_div, max_self, ge_iff_le]
  norm_num

/-- C4: on inputs within the documented scales, `classify_threat` is
deterministic (two runs on identical inputs yield identical results),
its output score lies in [0, 10], and the all-zero input with empty
content classifies as level "low" with score 0. -/
theorem classify_threat_deterministic_bounded (d dr f : ℚ) (c : String)
    (hd0 : 0 ≤ d) (hd1 : d ≤ 10) (hdr0 : 0 ≤ dr) (hdr1 : dr ≤ 100)
    (hf0 : 0 ≤ f) (hf1 : f ≤ 10) :
    classify_threat d dr c f = classify_threat d dr c f ∧
    0 ≤ (classify_threat d dr c f).score ∧
    (classify_threat d dr c f).score ≤ 10 ∧
    classify_threat 0 0 "" 0 = ⟨"low", 0⟩ := by
  have hb0 : 0 ≤ max (max d (dr / 10)) f :=
    le_trans hd0 (le_trans (le_max_left _ _) (le_max_left _ _))
  have hdr10 : dr / 10 ≤ 10 := by linarith
  have hb1 : max (max d (dr / 10)) f ≤ 10 :=
    max_le (max_le hd1 hdr10) hf1
  refine ⟨rfl, ?_, ?_, classify_zero_eval⟩ <;>
  · unfold classify_threat
    by_cases hc : critical_keywords.any (fun w => pyInStr w (pyLower c)) = true <;>
      by_cases hh : high_keywords.any (fun w => pyInStr w (pyLower c)) = true <;>
        simp only [hc, hh, Bool.false_eq_true, if_true, if_false] <;>
          split_ifs <;>
            simp only [] <;>
              first
                | exact le_min (by norm_num) (by linarith)
                | exact min_le_left _ _
                | linarith

/-- Witness for `classify_threat_deterministic_bounded` at dissonance 3,
drift 50, content "hello", impersonation 2. -/
theorem classify_threat_deterministic_bounded_witness :
    classify_threat 3 50 "hello" 2 = classify_threat 3 50 "hello" 2 ∧
    0 ≤ (classify_threat 3 50 "hello" 2).score ∧
    (classify_threat 3 50 "hello" 2).score ≤ 10 ∧
    classify_threat 0 0 "" 0 = ⟨"low", 0⟩ :=
  classify_threat_deterministic_bounded 3 50 2 "hello" (by norm_num) (by norm_num)
    (by norm_num) (by norm_num) (by norm_num) (by norm_num)

/-- Helper: "believe" matches no critical keyword. -/
theorem anyCrit_believe :
    critical_keywords.any (fun w => pyInStr w (pyLower "believe")) = false := by
  decide

/-- Helper: "believe" matches a high keyword (the substring "lie"). -/
theorem anyHigh_believe :
    high_keywords.any (fun w => pyInStr w (pyLower "believe")) = true := by
  decide

/-- Helper: evaluation of the classifier on content "believe". -/
theorem classify_believe_eval :
    classify_threat 0 0 "believe" 0 = ⟨"low", 3 / 2⟩ := by
  unfold classify_threat
  simp only [anyCrit_believe, anyHigh_believe, Bool.false_eq_true, if_false,
    if_true, zero_div, max_self, ge_iff_le]
  norm_num

/-- C9: the keyword scan of `classify_threat` is substring containment
on the lower-cased content, not whole-word matching: the content
"believe" (whose only word is "believe", which is in neither keyword
vocabulary) still receives the 1.5 high-vocabulary boost, because "lie"
occurs inside it as a substring — so the classification of
`classify_threat 0 0 "believe" 0` carries score 1.5 instead of 0. -/
theorem classify_threat_substring_not_whole_word :
    "believe" ∉ critical_keywords ∧ "believe" ∉ high_keywords ∧
    classify_threat 0 0 "believe" 0 = ⟨"low", 3 / 2⟩ ∧
    (classify_threat 0 0 "believe" 0).score ≠ 0 := by
  refine ⟨by decide, by decide, classify_believe_eval, ?_⟩
  rw [classify_believe_eval]
  norm_num

/-- C7: `send_telegram_alert` never raises — it is total and its status
is always one of skipped/sent/failed; a transport failure is caught and
returned as a failed result carrying the error detail; and with the
credentials absent (`telegram_enabled = false`) it short-circuits to
the skipped result without reaching the network call. -/
theorem send_telegram_alert_never_raises (enabled : Bool)
    (t : TransportOutcome) (td : ThreatData) (e : String)
    (mid : Option Nat) :
    ((send_telegram_alert enabled t td).1.status = "skipped" ∨
     (send_telegram_alert enabled t td).1.status = "sent" ∨
     (send_telegram_alert enabled t td).1.status = "failed") ∧
    send_telegram_alert false t td =
      (⟨"skipped", none, some "telegram_disabled", none, none⟩, false) ∧
    send_telegram_alert true (.failure e) td =
      (⟨"failed", some "telegram", none, none, some e⟩, true) ∧
    send_telegram_alert true (.success mid) td =
      (⟨"sent", some "telegram", none, mid, none⟩, true) := by
  refine ⟨?_, rfl, rfl, rfl⟩
  cases enabled <;> cases t <;> simp [send_telegram_alert]

/-- C10: when the similarity check is suspicious,
`generate_fake_account_report` mutates its `account_analysis` argument
in place — the combined flags list is the input's `suspicious_flags`
list with the similarity flag appended, the input object is not left
unchanged, and the report's `suspicious_flags` is that same (mutated)
list; when the similarity is not suspicious the input is unchanged. -/
theorem generate_fake_account_report_mutates (aa : AccountAnalysis)
    (sc : SimilarityCheck) :
    (sc.is_suspicious_similarity = true →
      (generate_fake_account_report aa sc).1.suspicious_flags =
        aa.suspicious_flags ++ [similarityFlag sc.closest_vip_match] ∧
      (generate_fake_account_report aa sc).1 ≠ aa ∧
      (generate_fake_account_report aa sc).2.suspicious_flags =
        (generate_fake_account_report aa sc).1.suspicious_flags ∧
      (generate_fake_account_report aa sc).2.account_details =
        (generate_fake_account_report aa sc).1) ∧
    (sc.is_suspicious_similarity = false →
      (generate_fake_account_report aa sc).1 = aa) := by
  constructor
  · intro hs
    refine ⟨by simp [generate_fake_account_report, hs], ?_, by rfl, by rfl⟩
    intro h
    have hf := congrArg AccountAnalysis.suspicious_flags h
    simp only [generate_fake_account_report, hs, if_true] at hf
    have hl := congrArg List.length hf
    simp at hl
  · intro hs
    simp [generate_fake_account_report, hs]

/-- Helper: each byte renders as exactly two hex characters. -/
theorem flatMap_byteHex_length (l : List Nat) :
    (l.flatMap byteHex).length = 2 * l.length := by
  induction l with
  | nil => simp
  | cons x t ih => simp [byteHex, ih]; omega

/-- Helper: a SHA-256 digest has 32 bytes. -/
theorem sha256Bytes_length (msg : List Nat) : (sha256Bytes msg).length = 32 := by
  simp [sha256Bytes, wordBytesBE]

/-- Helper: a SHA-256 hex digest has 64 characters. -/
theorem sha256Hex_data_length (s : String) : (sha256Hex s).data.length = 64 := by
  show ((sha256Bytes (strBytes s)).flatMap byteHex).length = 64
  rw [flatMap_byteHex_length, sha256Bytes_length]

/-- Helper: every evidence id has exactly 16 characters. -/
theorem evidence_id_data_length (content t : String) :
    ((capture_evidence content t).evidence_id).data.length = 16 := by
  show ((sha256Hex (content ++ t)).data.take 16).length = 16
  rw [List.length_take, sha256Hex_data_length]
  decide

/-- Helper: characters are valid code points, below 1114112. -/
theorem char_toNat_lt (c : Char) : c.toNat < 1114112 := by
  rcases c.valid with h | ⟨_, h2⟩
  · exact lt_trans h (by norm_num)
  · exact h2

/-- Helper: `Char.toNat` is injective. -/
theorem char_toNat_inj {a b : Char} (h : a.toNat = b.toNat) : a = b := by
  apply Char.eq_of_val_eq
  apply UInt32.eq_of_toBitVec_eq
  apply BitVec.eq_of_toNat_eq
  exact h

/-- Helper: strings with equal character lists are equal. -/
theorem string_data_ext {s t : String} (h : s.data = t.data) : s = t := by
  cases s; cases t; exact congrArg String.mk h

/-- Helper: the evidence id of content "x" at timestamp `t`, coded as a
point of the finite space of 16 valid code points. -/
def idCode (t : String) (i : Fin 16) : Fin 1114112 :=
  ⟨((capture_evidence "x" t).evidence_id.data.getD i 'a').toNat % 1114112,
   Nat.mod_lt _ (by norm_num)⟩

/-- C5 counterexample: it is not true that every pair of distinct
capture timestamps yields distinct evidence ids for identical content —
the id keeps only 16 hex characters of the hash, so the finitely many
possible ids cannot separate the infinitely many timestamps (truncation
collisions exist, as spec §4.3 itself concedes). -/
theorem capture_evidence_distinct_ids_not_universal :
    ¬ (∀ content t1 t2 : String, t1 ≠ t2 →
        (capture_evidence content t1).evidence_id ≠
          (capture_evidence content t2).evidence_id ∧
        (capture_evidence content t1).integrity_hash =
          (capture_evidence content t2).integrity_hash) := by
  intro hclaim
  obtain ⟨t1, t2, hne, hfeq⟩ := Finite.exists_ne_map_eq_of_infinite idCode
  have hlen1 := evidence_id_data_length "x" t1
  have hlen2 := evidence_id_data_length "x" t2
  have hdata : (capture_evidence "x" t1).evidence_id.data =
      (capture_evidence "x" t2).evidence_id.data := by
    apply List.ext_getElem (hlen1.trans hlen2.symm)
    intro i hi1 hi2
    have hi : i < 16 := by omega
    have hfi := congrFun hfeq ⟨i, hi⟩
    have hv := congrArg Fin.val hfi
    simp only [idCode] at hv
    rw [Nat.mod_eq_of_lt (char_toNat_lt _), Nat.mod_eq_of_lt (char_toNat_lt _)] at hv
    have hchar := char_toNat_inj hv
    rw [← List.getD_eq_getElem ((capture_evidence "x" t1).evidence_id.data) 'a' hi1,
      ← List.getD_eq_getElem ((capture_evidence "x" t2).evidence_id.data) 'a' hi2]
    exact hchar
  exact (hclaim "x" t1 t2 hne).1 (string_data_ext hdata)

/-- C5 (amended): for identical content at two capture timestamps the
`integrity_hash` is always identical — it is the SHA-256 of the content
alone — while the `evidence_id` is the first 16 hex characters of the
SHA-256 of content ++ timestamp, so the two ids coincide exactly when
those truncated digests coincide; at realistic adjacent timestamps the
ids are distinct. -/
theorem capture_evidence_id_and_integrity (content t1 t2 : String) :
    (capture_evidence content t1).integrity_hash =
      (capture_evidence content t2).integrity_hash ∧
    (capture_evidence content t1).integrity_hash = sha256Hex content ∧
    (capture_evidence content t1).evidence_id =
      pyTake 16 (sha256Hex (content ++ t1)) ∧
    ((capture_evidence content t1).evidence_id =
        (capture_evidence content t2).evidence_id ↔
      pyTake 16 (sha256Hex (content ++ t1)) =
        pyTake 16 (sha256Hex (content ++ t2))) ∧
    (capture_evidence "hello" "2024-01-01T00:00:00").evidence_id ≠
      (capture_evidence "hello" "2024-01-01T00:00:01").evidence_id :=
  ⟨rfl, rfl, rfl, Iff.rfl, by decide⟩

/-- C1: `SimpleCrisisEngine` defines no `get_alert_status` attribute, so
the `/alerts/{alert_id}` endpoint raises `AttributeError` — an uncaught
fatal HTTP 500 — for every alert id and every registry state; in
particular an unknown id is never answered with the NotFound result the
spec promises. -/
theorem get_alert_details_always_fatal (st : EngineState) (alert_id : String) :
    "get_alert_status" ∉ simpleCrisisEngineAttrs ∧
    get_alert_details st alert_id =
      .serverError
        "AttributeError: 'SimpleCrisisEngine' object has no attribute 'get_alert_status'" ∧
    ∀ d, get_alert_details st alert_id ≠ .notFound d := by
  refine ⟨by decide, rfl, ?_⟩
  intro d h
  simp [get_alert_details, engineLookupAttr, simpleCrisisEngineAttrs] at h

/-- C2 (amended): an invocation of `process_threat` writes exactly one
registry key — its own evidence id (derived from content and capture
timestamp); entries under every other key are left untouched, and the
key written now holds this invocation's entry. -/
theorem process_threat_registry_frame (st : EngineState) (now : String)
    (transport : TransportOutcome) (archive : Option String)
    (ar : AnalysisResult) (content vip platform : String)
    (url : Option String) (fake : Option FakeReport) (k : String)
    (hk : k ≠ (capture_evidence content now).evidence_id) :
    (process_threat st now transport archive ar content vip platform url fake).1.active_alerts k
      = st.active_alerts k ∧
    ∃ e, (process_threat st now transport archive ar content vip platform url
        fake).1.active_alerts (capture_evidence content now).evidence_id = some e ∧
      e.created_at = now ∧ e.threat_data.vip_handle = vip := by
  constructor
  · simp only [process_threat]
    exact if_neg hk
  · simp only [process_threat]
    rw [if_pos True.intro]
    exact ⟨_, rfl, rfl, rfl⟩

/-- Witness for `process_threat_registry_frame` at a concrete state,
input and unrelated key. -/
theorem process_threat_registry_frame_witness :
    (process_threat ⟨false, fun _ => none⟩ "T" (.failure "x") none
        ⟨some 5, some 0, none⟩ "c" "v" "p" none none).1.active_alerts "zzzz"
      = (⟨false, fun _ => none⟩ : EngineState).active_alerts "zzzz" ∧
    ∃ e, (process_threat ⟨false, fun _ => none⟩ "T" (.failure "x") none
        ⟨some 5, some 0, none⟩ "c" "v" "p" none none).1.active_alerts
        (capture_evidence "c" "T").evidence_id = some e ∧
      e.created_at = "T" ∧ e.threat_data.vip_handle = "v" :=
  process_threat_registry_frame ⟨false, fun _ => none⟩ "T" (.failure "x") none
    ⟨some 5, some 0, none⟩ "c" "v" "p" none none "zzzz" (by decide)

/-- C2 counterexample: two `process_threat` invocations with identical
content and identical capture timestamp but different subjects produce
the same evidence id, and the second invocation overwrites the first
registry entry — the stored subject handle changes from "alice" to
"bob", so an entry is not immune to later invocations. -/
theorem process_threat_overwrites_entry :
    let r1 := process_threat ⟨false, fun _ => none⟩ "T" (.failure "x") none
      ⟨some 5, some 0, none⟩ "c" "alice" "p" none none
    let r2 := process_threat r1.1 "T" (.failure "x") none
      ⟨some 5, some 0, none⟩ "c" "bob" "p" none none
    r2.2.alert_id = r1.2.alert_id ∧
    (r1.1.active_alerts r1.2.alert_id).map (fun e => e.threat_data.vip_handle)
      = some "alice" ∧
    (r2.1.active_alerts r1.2.alert_id).map (fun e => e.threat_data.vip_handle)
      = some "bob" := by
  refine ⟨rfl, ?_, ?_⟩ <;>
  · simp only [process_threat, capture_evidence]
    rw [if_pos True.intro]
    rfl

/-- Helper: "c" matches no critical keyword. -/
theorem anyCrit_c :
    critical_keywords.any (fun w => pyInStr w (pyLower "c")) = false := by decide

/-- Helper: "c" matches no high keyword. -/
theorem anyHigh_c :
    high_keywords.any (fun w => pyInStr w (pyLower "c")) = false := by decide

/-- Helper: evaluation of the classifier at dissonance 5, drift 0,
content "c", impersonation 0. -/
theorem classify_c_eval : classify_threat 5 0 "c" 0 = ⟨"medium", 5⟩ := by
  unfold classify_threat
  simp only [anyCrit_c, anyHigh_c, Bool.false_eq_true, if_false, zero_div]
  rw [max_eq_left (by norm_num : (0 : ℚ) ≤ 5), max_eq_left (by norm_num : (0 : ℚ) ≤ 5)]
  norm_num

/-- C6 (amended): every `process_threat` invocation registers an entry
whose dispatch-result list always starts with the console-channel
result (status sent, channel console), for every threat level; the
notification-channel (Telegram) result is present — as the second and
last element — exactly when the classified level is medium, high or
critical, and that result's status is sent or failed when the Telegram
credentials are configured, and skipped when they are absent. -/
theorem process_threat_dispatch_channels (st : EngineState) (now : String)
    (transport : TransportOutcome) (archive : Option String)
    (ar : AnalysisResult) (content vip platform : String)
    (url : Option String) (fake : Option FakeReport) :
    ∃ e, (process_threat st now transport archive ar content vip platform url
        fake).1.active_alerts
        (process_threat st now transport archive ar content vip platform url
          fake).2.alert_id = some e ∧
      e.alert_results.head? = some (send_console_alert e.threat_data) ∧
      (send_console_alert e.threat_data).channel = some "console" ∧
      (send_console_alert e.threat_data).status = "sent" ∧
      (if ["medium", "high", "critical"].contains
          (classify_threat (ar.dissonance_score.getD 0) (ar.drift_score.getD 0)
            content
            (match fake with
              | none => 0
              | some r => r.fake_account_risk_score.getD (r.risk_score.getD 0))).level then
        e.alert_results = [send_console_alert e.threat_data,
          (send_telegram_alert st.telegram_enabled transport e.threat_data).1] ∧
        (st.telegram_enabled = true →
          ((send_telegram_alert st.telegram_enabled transport e.threat_data).1.status
              = "sent" ∨
            (send_telegram_alert st.telegram_enabled transport e.threat_data).1.status
              = "failed")) ∧
        (st.telegram_enabled = false →
          (send_telegram_alert st.telegram_enabled transport e.threat_data).1.status
            = "skipped")
      else
        e.alert_results = [send_console_alert e.threat_data]) := by
  simp only [process_threat]
  rw [if_pos True.intro]
  refine ⟨_, rfl, rfl, rfl, rfl, ?_⟩
  by_cases h : ["medium", "high", "critical"].contains
      (classify_threat (ar.dissonance_score.getD 0) (ar.drift_score.getD 0) content
        (match fake with
          | none => 0
          | some r => r.fake_account_risk_score.getD (r.risk_score.getD 0))).level = true
  · rw [if_pos h]
    simp only [h, if_true]
    refine ⟨rfl, ?_, ?_⟩
    · intro he
      rw [he]
      cases transport
      · exact Or.inl rfl
      · exact Or.inr rfl
    · intro he
      rw [he]
      rfl
  · rw [if_neg h]
    simp only [Bool.not_eq_true] at h
    simp only [h, Bool.false_eq_true, if_false, List.append_nil]

/-- Witness for `process_threat_dispatch_channels` at a concrete
invocation (disabled Telegram, medium-level threat). -/
theorem process_threat_dispatch_channels_witness :
    ∃ e, (process_threat ⟨false, fun _ => none⟩ "T" (.failure "x") none
        ⟨some 5, some 0, none⟩ "c" "v" "p" none none).1.active_alerts
        (process_threat ⟨false, fun _ => none⟩ "T" (.failure "x") none
          ⟨some 5, some 0, none⟩ "c" "v" "p" none none).2.alert_id = some e ∧
      e.alert_results.head? = some (send_console_alert e.threat_data) ∧
      (send_console_alert e.threat_data).channel = some "console" ∧
      (send_console_alert e.threat_data).status = "sent" ∧
      (if ["medium", "high", "critical"].contains
          (classify_threat ((some (5 : ℚ)).getD 0) ((some (0 : ℚ)).getD 0) "c"
            (match (none : Option FakeReport) with
              | none => 0
              | some r => r.fake_account_risk_score.getD (r.risk_score.getD 0))).level then
        e.alert_results = [send_console_alert e.threat_data,
          (send_telegram_alert false (.failure "x") e.threat_data).1] ∧
        ((false : Bool) = true →
          ((send_telegram_alert false (.failure "x") e.threat_data).1.status = "sent" ∨
            (send_telegram_alert false (.failure "x") e.threat_data).1.status = "failed")) ∧
        ((false : Bool) = false →
          (send_telegram_alert false (.failure "x") e.threat_data).1.status = "skipped")
      else
        e.alert_results = [send_console_alert e.threat_data]) :=
  process_threat_dispatch_channels ⟨false, fun _ => none⟩ "T" (.failure "x") none
    ⟨some 5, some 0, none⟩ "c" "v" "p" none none

/-- C6 counterexample: with the Telegram credentials absent (the
unconfigured engine) a medium-level threat still registers a
notification-channel result, but its status is "skipped" — neither
"sent" nor "failed" — so the claim that a sent-or-failed attempt result
is present for every medium/high/critical item fails. -/
theorem process_threat_skipped_not_sent_or_failed :
    let r := process_threat ⟨false, fun _ => none⟩ "T" (.failure "x") none
      ⟨some 5, some 0, none⟩ "c" "v" "p" none none
    r.2.threat_level = "medium" ∧
    (r.1.active_alerts r.2.alert_id).map (fun e => e.alert_results.map fun c => c.status)
      = some ["sent", "skipped"] ∧
    ("skipped" ≠ "sent" ∧ "skipped" ≠ "failed") := by
  refine ⟨?_, ?_, by decide, by decide⟩
  · simp only [process_threat, Option.getD_some]
    rw [classify_c_eval]
  · simp only [process_threat, Option.getD_some]
    rw [classify_c_eval, if_pos True.intro]
    rfl

/-- Helper: `ratio()` of a sequence with itself is 1.0 — the
matcher's best block is the full diagonal, whatever the autojunk
popularity purge removed. -/
theorem pyRatio_self (a : List Char) : pyRatio a a = 1 := by
  unfold pyRatio
  by_cases h : a.length + a.length = 0
  · rw [if_pos h]
  · rw [if_neg h]
    rw [matchedTotal_self]
    rw [div_eq_one_iff_eq (by exact_mod_cast h)]
    push_cast
    ring

/-- Helper: `ratio()` is never negative. -/
theorem pyRatio_nonneg (a b : List Char) : 0 ≤ pyRatio a b := by
  unfold pyRatio
  dsimp only
  split
  · norm_num
  · positivity

/-- Helper: the similarity loop computes the running maximum (strict
update), bounds every handle's ratio, and attains its value at some
handle unless it keeps the initial value. -/
theorem cusLoop_spec (suspect : String) (handles : List String)
    (sims : List (String × ℚ)) (mx : ℚ) (cm : Option String) :
    mx ≤ (cusLoop suspect handles sims mx cm).2.1 ∧
    (∀ v ∈ handles, simRatio suspect v ≤ (cusLoop suspect handles sims mx cm).2.1) ∧
    ((cusLoop suspect handles sims mx cm).2.1 = mx ∨
      ∃ v ∈ handles, (cusLoop suspect handles sims mx cm).2.1 = simRatio suspect v) := by
  induction handles generalizing sims mx cm with
  | nil => exact ⟨le_rfl, by simp, Or.inl rfl⟩
  | cons v rest ih =>
    rw [show cusLoop suspect (v :: rest) sims mx cm =
        (if mx < simRatio suspect v then
          cusLoop suspect rest (sims ++ [(v, simRatio suspect v)])
            (simRatio suspect v) (some v)
        else
          cusLoop suspect rest (sims ++ [(v, simRatio suspect v)]) mx cm)
      from by rw [cusLoop]]
    by_cases hlt : mx < simRatio suspect v
    · rw [if_pos hlt]
      have h := ih (sims ++ [(v, simRatio suspect v)]) (simRatio suspect v) (some v)
      refine ⟨le_trans (le_of_lt hlt) h.1, ?_, ?_⟩
      · intro x hx
        rcases List.mem_cons.mp hx with hx' | hx'
        · subst hx'
          exact h.1
        · exact h.2.1 x hx'
      · rcases h.2.2 with h0 | ⟨w, hw, he⟩
        · exact Or.inr ⟨v, List.mem_cons_self v rest, h0⟩
        · exact Or.inr ⟨w, List.mem_cons_of_mem _ hw, he⟩
    · rw [if_neg hlt]
      have h := ih (sims ++ [(v, simRatio suspect v)]) mx cm
      refine ⟨h.1, ?_, ?_⟩
      · intro x hx
        rcases List.mem_cons.mp hx with hx' | hx'
        · subst hx'
          exact le_trans (le_of_not_lt hlt) h.1
        · exact h.2.1 x hx'
      · rcases h.2.2 with h0 | ⟨w, hw, he⟩
        · exact Or.inl h0
        · exact Or.inr ⟨w, List.mem_cons_of_mem _ hw, he⟩

/-- C8: `check_username_similarity` returns the maximum normalised
similarity ratio over the given handles (every handle's ratio is below
it, and on a non-empty handle list it is attained by some handle — or
equals the 0.0 start value only when all ratios are 0, in which case it
is still attained); it flags `is_suspicious_similarity` exactly when
`0.7 ≤ max_similarity < 1.0`; and a case-insensitively identical
handle has similarity ratio exactly 1.0 and is never flagged
suspicious. -/
theorem check_username_similarity_spec (suspect : String)
    (handles : List String) :
    (∀ v ∈ handles, simRatio suspect v
        ≤ (check_username_similarity suspect handles).max_similarity) ∧
    (handles ≠ [] → ∃ v ∈ handles,
      (check_username_similarity suspect handles).max_similarity
        = simRatio suspect v) ∧
    ((check_username_similarity suspect handles).is_suspicious_similarity = true ↔
      (7 / 10 ≤ (check_username_similarity suspect handles).max_similarity ∧
        (check_username_similarity suspect handles).max_similarity < 1)) ∧
    (∀ v ∈ handles, pyLower v = pyLower suspect →
      simRatio suspect v = 1 ∧
      (check_username_similarity suspect handles).is_suspicious_similarity
        = false) := by
  have h := cusLoop_spec suspect handles [] 0 none
  have hmax : (check_username_similarity suspect handles).max_similarity
      = (cusLoop suspect handles [] 0 none).2.1 := rfl
  have hsusp : (check_username_similarity suspect handles).is_suspicious_similarity
      = decide (7 / 10 ≤ (cusLoop suspect handles [] 0 none).2.1 ∧
          (cusLoop suspect handles [] 0 none).2.1 < 1) := rfl
  refine ⟨fun v hv => by rw [hmax]; exact h.2.1 v hv, ?_, ?_, ?_⟩
  · intro hne
    rcases h.2.2 with h0 | ⟨v, hv, he⟩
    · obtain ⟨v, hv⟩ := List.exists_mem_of_ne_nil handles hne
      refine ⟨v, hv, ?_⟩
      have h1 := h.2.1 v hv
      have h2 : (0 : ℚ) ≤ simRatio suspect v := pyRatio_nonneg _ _
      rw [hmax]
      rw [h0] at h1 ⊢
      linarith
    · exact ⟨v, hv, by rw [hmax, he]⟩
  · rw [hsusp, hmax]
    simp [decide_eq_true_eq]
  · intro v hv hlow
    have hr : simRatio suspect v = 1 := by
      unfold simRatio
      rw [hlow]
      exact pyRatio_self _
    refine ⟨hr, ?_⟩
    have hge : (1 : ℚ) ≤ (cusLoop suspect handles [] 0 none).2.1 := by
      rw [← hr]
      exact h.2.1 v hv
    rw [hsusp]
    simp only [decide_eq_false_iff_not]
    intro hc
    linarith [hc.2]

/-- Witness for `check_username_similarity_spec` at the spec's own
example: the candidate "elonmusk" against the handle list
["elonmusk"]. -/
theorem check_username_similarity_spec_witness :
    simRatio "elonmusk" "elonmusk" = 1 ∧
    (check_username_similarity "elonmusk" ["elonmusk"]).is_suspicious_similarity
      = false ∧
    (check_username_similarity "elonmusk" ["elonmusk"]).max_similarity = 1 := by
  have h := check_username_similarity_spec "elonmusk" ["elonmusk"]
  have hid := h.2.2.2 "elonmusk" (List.mem_singleton_self _) rfl
  refine ⟨hid.1, hid.2, ?_⟩
  obtain ⟨v, hv, he⟩ := h.2.1 (by simp)
  rw [List.mem_singleton] at hv
  subst hv
  rw [he]
  exact hid.1

/-- Witness for `generate_fake_account_report_mutates` at a concrete
suspicious similarity check. -/
theorem generate_fake_account_report_mutates_witness :
    (generate_fake_account_report ⟨"elonmu5k", 2, ["Low karma account"], "t0", "Reddit"⟩
        ⟨true, 9 / 10, some "elonmusk", [("elonmusk", 9 / 10)]⟩).1.suspicious_flags =
      ["Low karma account"] ++ [similarityFlag (some "elonmusk")] ∧
    (generate_fake_account_report ⟨"elonmu5k", 2, ["Low karma account"], "t0", "Reddit"⟩
        ⟨true, 9 / 10, some "elonmusk", [("elonmusk", 9 / 10)]⟩).1 ≠
      ⟨"elonmu5k", 2, ["Low karma account"], "t0", "Reddit"⟩ := by
  have h := (generate_fake_account_report_mutates
    ⟨"elonmu5k", 2, ["Low karma account"], "t0", "Reddit"⟩
    ⟨true, 9 / 10, some "elonmusk", [("elonmusk", 9 / 10)]⟩).1 rfl
  exact ⟨h.1, h.2.1⟩

end CogT
